import Mathlib

/-!
Verification of the governance proposal auditor (`src/governance_auditor.js`).

The development shallowly embeds the decode-and-score pipeline:
`buildSelectorIndex`, the `RULES` table, `analyzeCall` and the report
aggregation of `main`.  JavaScript strings are modelled as Lean `String`
(sequences of `Char`); the JS object used as selector index is modelled as an
association list in which a later assignment shadows an earlier binding;
JS numbers are modelled by exact rationals (`Rat`) plus explicit NaN and
infinity markers.  The keccak-256 hex digest provided by the platform's
crypto library is modelled as a function parameter `k : String → String`;
the property actually used of it (a hex digest is 64 lowercase hexadecimal
characters) appears as an explicit hypothesis where needed.
-/

/-- Model of JS `s.slice(0, n)` on strings: the first `n` characters. -/
def strTake (s : String) (n : Nat) : String := ⟨s.data.take n⟩

/-- Model of JS `String.prototype.toLowerCase` (ASCII range, which is all the
source's rule patterns use). -/
def jsToLower (s : String) : String := ⟨s.data.map Char.toLower⟩

/-- Substring test: does `s` contain `pat` as a contiguous substring?
Models a regex literal such as `/mint/` applied by `.test`. -/
def containsSub (pat : List Char) : List Char → Bool
  | [] => pat.isEmpty
  | c :: t => pat.isPrefixOf (c :: t) || containsSub pat t

/-- Characters a JS regex `.` (without the `s` flag) does NOT match. -/
def isLineTerm (c : Char) : Bool :=
  c = '\n' || c = '\r' || c.toNat = 0x2028 || c.toNat = 0x2029

/-- Matcher for the regex fragment `.*(p₁|p₂|...)` anchored at the head of the
input: some alternative occurs later in the input with no line terminator
before it. -/
def dotStarAlt (pats : List (List Char)) : List Char → Bool
  | [] => pats.any (fun p => p.isEmpty)
  | c :: t => pats.any (fun p => p.isPrefixOf (c :: t)) || (!isLineTerm c && dotStarAlt pats t)

/-- Unanchored matcher for regexes of the shape `(f₁|f₂|...).*(p₁|p₂|...)`:
at some position one of `firsts` matches, and after it `.*(alternatives)`
matches.  Used for `/upgrade.*(implementation|proxy)/` and
`/(grant|revoke).*role/`. -/
def searchAltThen (firsts pats : List (List Char)) : List Char → Bool
  | [] => firsts.any (fun f => f.isEmpty && dotStarAlt pats [])
  | c :: t =>
      firsts.any (fun f => f.isPrefixOf (c :: t) && dotStarAlt pats (List.drop f.length (c :: t)))
        || searchAltThen firsts pats t

/-- A JS number as it matters to the auditor: NaN, the infinities, or an exact
rational value (JS doubles that arise here are integers, represented
exactly). -/
inductive JsNum where
  | nan : JsNum
  | inf : JsNum
  | negInf : JsNum
  | val : Rat → JsNum
deriving DecidableEq, Repr

/-- A JSON / JS value that can sit in a call's `value` field: a number, a
string, or absent (`undefined`). -/
inductive JsValue where
  | num : Rat → JsValue
  | str : String → JsValue
  | missing : JsValue
deriving DecidableEq, Repr

/-- ECMAScript whitespace accepted around a numeric string (common subset). -/
def isJsWs (c : Char) : Bool :=
  c = ' ' || c = '\t' || c = '\n' || c = '\r' ||
    c.toNat = 11 || c.toNat = 12 || c.toNat = 160 || c.toNat = 65279

/-- Strip leading and trailing JS whitespace. -/
def trimWs (l : List Char) : List Char :=
  ((l.dropWhile isJsWs).reverse.dropWhile isJsWs).reverse

/-- Value of a digit character in bases up to 16. -/
def digitValHex (c : Char) : Nat :=
  if c.isDigit then c.toNat - 48
  else if 'a' ≤ c && c ≤ 'f' then c.toNat - 87
  else c.toNat - 55

/-- Hexadecimal digit test (either case). -/
def isHexDigitCh (c : Char) : Bool :=
  c.isDigit || ('a' ≤ c && c ≤ 'f') || ('A' ≤ c && c ≤ 'F')

/-- Read a digit list in base `b`. -/
def natOfDigitsBase (b : Nat) (ds : List Char) : Nat :=
  ds.foldl (fun a c => a * b + digitValHex c) 0

/-- Apply an exponent part `eN` / `e-N` to an already parsed mantissa. -/
def applyExp (v : Rat) (neg : Bool) (ds : List Char) : Option Rat :=
  if ds.isEmpty || !(ds.all (·.isDigit)) then none
  else
    let e := natOfDigitsBase 10 ds
    some (if neg then v / (10 : Rat) ^ e else v * (10 : Rat) ^ e)

/-- Parse the optional exponent tail of a decimal literal; the whole rest of
the input must be consumed. -/
def parseExpTail (v : Rat) : List Char → Option Rat
  | [] => some v
  | 'e' :: r =>
      match r with
      | '+' :: r2 => applyExp v false r2
      | '-' :: r2 => applyExp v true r2
      | _ => applyExp v false r
  | 'E' :: r =>
      match r with
      | '+' :: r2 => applyExp v false r2
      | '-' :: r2 => applyExp v true r2
      | _ => applyExp v false r
  | _ => none

/-- Parse an unsigned decimal literal (`D+ [. D*] [exp]` or `. D+ [exp]`),
consuming the whole input. -/
def parseUnsignedDec (l : List Char) : Option Rat :=
  let ip := l.takeWhile (·.isDigit)
  let r1 := l.dropWhile (·.isDigit)
  if ip.isEmpty then
    match r1 with
    | '.' :: r2 =>
        let fp := r2.takeWhile (·.isDigit)
        let r3 := r2.dropWhile (·.isDigit)
        if fp.isEmpty then none
        else parseExpTail ((natOfDigitsBase 10 fp : Rat) / (10 : Rat) ^ fp.length) r3
    | _ => none
  else
    match r1 with
    | '.' :: r2 =>
        let fp := r2.takeWhile (·.isDigit)
        let r3 := r2.dropWhile (·.isDigit)
        parseExpTail ((natOfDigitsBase 10 ip : Rat)
          + (natOfDigitsBase 10 fp : Rat) / (10 : Rat) ^ fp.length) r3
    | _ => parseExpTail (natOfDigitsBase 10 ip : Rat) r1

/-- Parse a non-decimal integer literal (`0x`, `0o`, `0b`, no sign). -/
def parseNonDec (l : List Char) : Option Rat :=
  match l with
  | '0' :: x :: r =>
      if (x == 'x' || x == 'X') && !r.isEmpty && r.all isHexDigitCh then
        some (natOfDigitsBase 16 r : Nat)
      else if (x == 'o' || x == 'O') && !r.isEmpty && r.all (fun c => '0' ≤ c && c ≤ '7') then
        some (natOfDigitsBase 8 r : Nat)
      else if (x == 'b' || x == 'B') && !r.isEmpty && r.all (fun c => c == '0' || c == '1') then
        some (natOfDigitsBase 2 r : Nat)
      else none
  | _ => none

/-- Parse an unsigned numeric literal or the word `Infinity`. -/
def parseUnsignedOrInf (l : List Char) : Option JsNum :=
  if l == "Infinity".data then some .inf
  else (parseUnsignedDec l).map .val

/-- Negate a JS number. -/
def jsNegate : JsNum → JsNum
  | .nan => .nan
  | .inf => .negInf
  | .negInf => .inf
  | .val q => .val (-q)

/-- Model of ECMAScript `StringToNumber` (the coercion performed by
`Number(string)`): trim whitespace, empty means 0, otherwise a signed decimal
literal, `Infinity`, or an unsigned non-decimal literal; anything else is
NaN. -/
def strToNumber (s : String) : JsNum :=
  match trimWs s.data with
  | [] => .val 0
  | '+' :: r => (parseUnsignedOrInf r).getD .nan
  | '-' :: r => ((parseUnsignedOrInf r).map jsNegate).getD .nan
  | l =>
      match parseNonDec l with
      | some q => .val q
      | none => (parseUnsignedOrInf l).getD .nan

/-- Model of `Number(v)` on the values a call's `value` field can hold. -/
def jsNumberOf : JsValue → JsNum
  | .num q => .val q
  | .str s => strToNumber s
  | .missing => .nan

/-- Model of `call.value || 0`: falsy values (absent, 0, the empty string)
are replaced by the number 0. -/
def valueOrZero : JsValue → JsValue
  | .missing => .num 0
  | .num q => .num q
  | .str s => if s = "" then .num 0 else .str s

/-- Is a JS number strictly greater than 0?  NaN compares false. -/
def jsGtZero : JsNum → Bool
  | .nan => false
  | .inf => true
  | .negInf => false
  | .val q => decide (0 < q)

/-- The analyzer's value check `Number(call.value || 0) > 0`. -/
def valuePositive (v : JsValue) : Bool := jsGtZero (jsNumberOf (valueOrZero v))

/-- One entry of an ABI `inputs` array; only its `type` string is used. -/
structure AbiParam where
  type : String
deriving DecidableEq, Repr

/-- One entry of the interface description (`abi.json`): a declared item with
a `type` tag, a name, an optional `inputs` list and an optional
`stateMutability`. -/
structure AbiEntry where
  type : String
  name : String
  inputs : Option (List AbiParam)
  stateMutability : Option String
deriving DecidableEq, Repr

/-- The function metadata stored in the selector index
(`{ name, inputs, stateMutability }` in the source). -/
structure FunctionMeta where
  name : String
  inputs : List AbiParam
  stateMutability : String
deriving DecidableEq, Repr

/-- Model of `arr.join(',')` on the parameter type strings. -/
def joinComma : List String → String
  | [] => ""
  | [x] => x
  | x :: xs => x ++ "," ++ joinComma xs

/-- The canonical signature string `name(type1,type2,...)` built at line 24 of
the source (missing `inputs` defaults to the empty list). -/
def signatureOf (f : AbiEntry) : String :=
  f.name ++ "(" ++ joinComma ((f.inputs.getD []).map AbiParam.type) ++ ")"

/-- Selector derivation (line 25): `'0x' + digest.slice(0, 8)` where
`k sig` models the lowercase keccak-256 hex digest of the signature. -/
def deriveSelector (k : String → String) (sig : String) : String :=
  "0x" ++ strTake (k sig) 8

/-- The metadata record stored for one function entry (line 26); missing
`stateMutability` defaults to `"nonpayable"`. -/
def entryMeta (f : AbiEntry) : FunctionMeta :=
  { name := f.name, inputs := f.inputs.getD [], stateMutability := f.stateMutability.getD "nonpayable" }

/-- One loop iteration of `buildSelectorIndex`: non-function entries are
skipped; a function entry's binding is prepended, shadowing any earlier
binding of the same selector (JS `idx[sel] = ...` overwrite). -/
def addEntry (k : String → String) (idx : List (String × FunctionMeta)) (f : AbiEntry) :
    List (String × FunctionMeta) :=
  if f.type = "function" then (deriveSelector k (signatureOf f), entryMeta f) :: idx else idx

/-- Model of `buildSelectorIndex` (lines 19-29): fold the interface
description into an association list keyed by derived selector. -/
def buildSelectorIndex (k : String → String) (abi : List AbiEntry) :
    List (String × FunctionMeta) :=
  abi.foldl (addEntry k) []

/-- The index's own bindings read at `sel`: the most recent binding, if
any.  This is the own-property part of the JS read `selectorIndex[sel]`;
the object literal's prototype chain, which that read also traverses, is
modelled separately by `jsPropRead` below. -/
def idxLookup (idx : List (String × FunctionMeta)) (sel : String) : Option FunctionMeta :=
  (idx.find? fun p => p.1 == sel).map Prod.snd

/-- A rule of the `RULES` table: `test` models `rule.regex.test`. -/
structure Rule where
  id : String
  test : String → Bool
  weight : Nat
  desc : String

/-- Model of `/delegatecall/i.test s`. -/
def reDelegatecall (s : String) : Bool :=
  containsSub "delegatecall".data (jsToLower s).data

/-- Model of `/upgrade.*(implementation|proxy)/i.test s`: an occurrence of
`upgrade` followed later (no line terminator between) by `implementation` or
`proxy`. -/
def reUpgradeProxy (s : String) : Bool :=
  searchAltThen ["upgrade".data] ["implementation".data, "proxy".data] (jsToLower s).data

/-- Model of `/(grant|revoke).*role/i.test s`. -/
def reRoleAdmin (s : String) : Bool :=
  searchAltThen ["grant".data, "revoke".data] ["role".data] (jsToLower s).data

/-- Model of `/pause|unpause/i.test s`. -/
def rePause (s : String) : Bool :=
  containsSub "pause".data (jsToLower s).data || containsSub "unpause".data (jsToLower s).data

/-- Model of `/mint/i.test s`. -/
def reMint (s : String) : Bool :=
  containsSub "mint".data (jsToLower s).data

/-- The `RULES` table (lines 32-38), in declaration order. -/
def RULES : List Rule :=
  [ { id := "delegatecall", test := reDelegatecall, weight := 40, desc := "Potential delegatecall use" },
    { id := "upgrade-proxy", test := reUpgradeProxy, weight := 25, desc := "Proxy upgrade" },
    { id := "role-admin", test := reRoleAdmin, weight := 15, desc := "Role change" },
    { id := "pause", test := rePause, weight := 10, desc := "Pausing contract" },
    { id := "mint", test := reMint, weight := 20, desc := "Token minting" } ]

/-- A queued call (`{ to, data, value? }`); `data` is a string.  The JS field
`to` is named `toAddr` here because `to` is reserved in Lean. -/
structure QueuedCall where
  toAddr : String
  data : String
  value : JsValue
deriving DecidableEq, Repr

/-- The per-call result built by `analyzeCall` (its `target` field is added
later, in `main`). -/
structure AnalysisResult where
  risk : Nat
  reasons : List String
  selector : String
deriving DecidableEq, Repr

/-- The body of the rule loop (line 50): on a match add the weight and append
the description. -/
def applyRule (name : String) (res : AnalysisResult) (rule : Rule) : AnalysisResult :=
  if rule.test name then
    { res with risk := res.risk + rule.weight, reasons := res.reasons ++ [rule.desc] }
  else res

/-- Model of `analyzeCall` (lines 40-57) over the index's own bindings.
On every selector that is not the name of an `Object.prototype` member (in
particular on every derived `0x`-prefixed selector) this agrees exactly
with the source; `analyzeCallJs` below extends it with the prototype chain
that the source's object literal actually carries. -/
def analyzeCall (selectorIndex : List (String × FunctionMeta)) (call : QueuedCall) :
    AnalysisResult :=
  let res0 : AnalysisResult := { risk := 0, reasons := [], selector := strTake call.data 10 }
  let res1 :=
    match idxLookup selectorIndex res0.selector with
    | none =>
        { res0 with risk := res0.risk + 10,
                    reasons := res0.reasons ++ ["Unknown selector (not in ABI)"] }
    | some meta =>
        let name := jsToLower meta.name
        let r := RULES.foldl (applyRule name) res0
        if meta.stateMutability = "payable" then
          { r with risk := r.risk + 5, reasons := r.reasons ++ ["Payable call"] }
        else r
  if valuePositive call.value then
    { res1 with risk := res1.risk + 5, reasons := res1.reasons ++ ["ETH value attached"] }
  else res1

/-- A value the JS property read `selectorIndex[sel]` can produce on the
source's index, an object literal `{}`: an own binding, an inherited
`Object.prototype` function (whose own `name` property is a string), the
object `Object.prototype` itself (reached through the inherited
`__proto__` accessor; it has no `name` property), or `undefined`. -/
inductive PropValue where
  | ownMeta : FunctionMeta → PropValue
  | protoFun : String → PropValue
  | protoObject : PropValue
  | undefined : PropValue
deriving DecidableEq, Repr

/-- The `Object.prototype` members every object literal inherits, each with
the value of the member function's `name` property (the `constructor`
member is the `Object` function, so its `name` is `"Object"`). -/
def objectProtoMembers : List (String × String) :=
  [("constructor", "Object"),
   ("hasOwnProperty", "hasOwnProperty"),
   ("isPrototypeOf", "isPrototypeOf"),
   ("propertyIsEnumerable", "propertyIsEnumerable"),
   ("toLocaleString", "toLocaleString"),
   ("toString", "toString"),
   ("valueOf", "valueOf"),
   ("__defineGetter__", "__defineGetter__"),
   ("__defineSetter__", "__defineSetter__"),
   ("__lookupGetter__", "__lookupGetter__"),
   ("__lookupSetter__", "__lookupSetter__")]

/-- Full model of the JS property read `selectorIndex[sel]` on the object
literal built by `buildSelectorIndex`: an own binding shadows everything;
otherwise the read traverses the prototype chain and finds the inherited
`Object.prototype` members; otherwise it is `undefined`. -/
def jsPropRead (idx : List (String × FunctionMeta)) (sel : String) : PropValue :=
  match idxLookup idx sel with
  | some m => .ownMeta m
  | none =>
      if sel = "__proto__" then .protoObject
      else
        match objectProtoMembers.find? (fun p => p.1 == sel) with
        | some p => .protoFun p.2
        | none => .undefined

/-- Model of `analyzeCall` (lines 40-57) with the prototype chain of the
index object included.  All inherited values are truthy, so a selector that
hits one takes the resolved branch: an inherited function's `name` is its
`name` property (a string) and its `stateMutability` read is `undefined`,
never `"payable"`; `Object.prototype` itself has no `name`, so
`meta.name.toLowerCase()` throws a TypeError there — modelled as `none`,
aborting the analysis with no result. -/
def analyzeCallJs (selectorIndex : List (String × FunctionMeta)) (call : QueuedCall) :
    Option AnalysisResult :=
  let res0 : AnalysisResult := { risk := 0, reasons := [], selector := strTake call.data 10 }
  let res1? : Option AnalysisResult :=
    match jsPropRead selectorIndex res0.selector with
    | .undefined =>
        some { res0 with risk := res0.risk + 10,
                         reasons := res0.reasons ++ ["Unknown selector (not in ABI)"] }
    | .ownMeta meta =>
        let name := jsToLower meta.name
        let r := RULES.foldl (applyRule name) res0
        some (if meta.stateMutability = "payable" then
          { r with risk := r.risk + 5, reasons := r.reasons ++ ["Payable call"] }
        else r)
    | .protoFun nm => some (RULES.foldl (applyRule (jsToLower nm)) res0)
    | .protoObject => none
  match res1? with
  | none => none
  | some res1 =>
      some (if valuePositive call.value then
        { res1 with risk := res1.risk + 5, reasons := res1.reasons ++ ["ETH value attached"] }
      else res1)

/-- One item of the emitted report: an analysis result with the call's `to`
attached as `target` (line 68). -/
structure ReportItem where
  risk : Nat
  reasons : List String
  selector : String
  target : String
deriving DecidableEq, Repr

/-- The report (`{ avgRisk, items }`). -/
structure Report where
  avgRisk : String
  items : List ReportItem
deriving DecidableEq, Repr

/-- Attach a call's `to` field to its analysis result. -/
def withTarget (r : AnalysisResult) (tgt : String) : ReportItem :=
  { risk := r.risk, reasons := r.reasons, selector := r.selector, target := tgt }

/-- Two-digit decimal rendering of a natural number below 100. -/
def pad2 (m : Nat) : String := (if m < 10 then "0" else "") ++ Nat.repr m

/-- Model of `x.toFixed(2)` on the exact rational value `x`: pick the
integer `n` with `n / 100` closest to `x` (ties to the larger `n`, per
ECMAScript), i.e. `n = ⌊100x + 1/2⌋ = (200·num + den) fdiv (2·den)`, and
render it with exactly two fraction digits. -/
def toFixed2 (x : Rat) : String :=
  let n : Int := (200 * x.num + (x.den : Int)).fdiv (2 * (x.den : Int))
  let m : Nat := n.natAbs
  let s := Nat.repr (m / 100) ++ "." ++ pad2 (m % 100)
  if n < 0 then "-" ++ s else s

/-- Model of the analysis part of `main` (lines 59-75) after the two input
files are parsed: build the index, analyze every call in order attaching the
targets, and aggregate the average risk. -/
def mainReport (k : String → String) (abi : List AbiEntry) (calls : List QueuedCall) : Report :=
  let selectorIndex := buildSelectorIndex k abi
  let results := calls.map fun c => withTarget (analyzeCall selectorIndex c) c.toAddr
  let totalRisk : Nat := results.foldl (fun a b => a + b.risk) 0
  let avg := if results.length = 0 then "0.00"
             else toFixed2 ((totalRisk : Rat) / (results.length : Rat))
  { avgRisk := avg, items := results }

/-- String concatenation concatenates the underlying character lists. -/
theorem data_append (a b : String) : (a ++ b).data = a.data ++ b.data := by
  cases a; cases b; rfl

/-- Characters of a string prefix. -/
theorem strTake_data (s : String) (n : Nat) : (strTake s n).data = s.data.take n := rfl

/-- A string's length is the length of its character list. -/
theorem string_length_data (s : String) : s.length = s.data.length := rfl

/-- The rule loop of `analyzeCall` accumulates exactly the weights and
descriptions of the matching rules, in rule order, onto the incoming
accumulator. -/
theorem foldl_applyRule (name : String) (rules : List Rule) :
    ∀ acc : AnalysisResult,
      rules.foldl (applyRule name) acc =
        { acc with
          risk := acc.risk + ((rules.filter fun r => r.test name).map Rule.weight).sum,
          reasons := acc.reasons ++ (rules.filter fun r => r.test name).map Rule.desc } := by
  induction rules with
  | nil => intro acc; simp
  | cons r rs ih =>
      intro acc
      by_cases h : r.test name = true
      · simp [applyRule, h, ih, List.filter_cons, Nat.add_assoc, List.append_assoc]
      · simp [applyRule, h, ih, List.filter_cons]

/-- The outcome of the selector-resolution and rule phase of `analyzeCall`
(lines 43-53), as a risk total and ordered reason list. -/
def phase1 (idx : List (String × FunctionMeta)) (sel : String) : Nat × List String :=
  match idxLookup idx sel with
  | none => (10, ["Unknown selector (not in ABI)"])
  | some m =>
      let matched := RULES.filter fun r => r.test (jsToLower m.name)
      ((matched.map Rule.weight).sum + (if m.stateMutability = "payable" then 5 else 0),
       (matched.map Rule.desc) ++ (if m.stateMutability = "payable" then ["Payable call"] else []))

/-- Normal form of `analyzeCall`: the risk is the sum of the rule-phase
contribution and the value penalty, and the reasons are the rule-phase
reasons followed by the value reason. -/
theorem analyzeCall_spec (idx : List (String × FunctionMeta)) (call : QueuedCall) :
    analyzeCall idx call =
      { risk := (phase1 idx (strTake call.data 10)).1
          + (if valuePositive call.value then 5 else 0),
        reasons := (phase1 idx (strTake call.data 10)).2
          ++ (if valuePositive call.value then ["ETH value attached"] else []),
        selector := strTake call.data 10 } := by
  unfold analyzeCall phase1
  cases hm : idxLookup idx (strTake call.data 10) with
  | none => cases hv : valuePositive call.value <;> simp [hm, hv]
  | some m =>
      cases hv : valuePositive call.value <;>
        by_cases hp : m.stateMutability = "payable" <;>
          simp [hm, hv, hp, foldl_applyRule, List.append_assoc]

/-- Folding `addEntry` from any accumulator prepends the fold from the empty
accumulator. -/
theorem build_acc (k : String → String) (abi : List AbiEntry) :
    ∀ acc, abi.foldl (addEntry k) acc = abi.foldl (addEntry k) [] ++ acc := by
  induction abi with
  | nil => intro acc; rfl
  | cons f fs ih =>
      intro acc
      simp only [List.foldl_cons]
      rw [ih (addEntry k acc f), ih (addEntry k [] f)]
      unfold addEntry
      by_cases h : f.type = "function" <;> simp [h]

/-- Every binding of the selector index comes from a `"function"` entry of
the interface description, with the derived selector as its key. -/
theorem mem_buildSelectorIndex (k : String → String) (abi : List AbiEntry)
    (p : String × FunctionMeta) (hp : p ∈ buildSelectorIndex k abi) :
    ∃ f ∈ abi, f.type = "function" ∧ p = (deriveSelector k (signatureOf f), entryMeta f) := by
  induction abi with
  | nil => simp [buildSelectorIndex] at hp
  | cons f fs ih =>
      unfold buildSelectorIndex at hp
      rw [List.foldl_cons, build_acc] at hp
      rcases List.mem_append.1 hp with h1 | h2
      · obtain ⟨g, hg, hgf, hpg⟩ := ih h1
        exact ⟨g, List.mem_cons_of_mem _ hg, hgf, hpg⟩
      · unfold addEntry at h2
        by_cases h : f.type = "function"
        · rw [if_pos h] at h2
          rcases List.mem_cons.1 h2 with h2 | h2
          · exact ⟨f, List.mem_cons_self _ _, h, h2⟩
          · cases h2
        · rw [if_neg h] at h2
          cases h2

/-- Building the index over a decomposed interface description: the fold
visits `abi1`, then `e`, then `abi2`, and each visit prepends. -/
theorem build_append (k : String → String) (abi1 abi2 : List AbiEntry) (e : AbiEntry)
    (he : e.type = "function") :
    buildSelectorIndex k (abi1 ++ e :: abi2) =
      buildSelectorIndex k abi2
        ++ (deriveSelector k (signatureOf e), entryMeta e) :: buildSelectorIndex k abi1 := by
  unfold buildSelectorIndex
  rw [List.foldl_append, List.foldl_cons, build_acc k abi2]
  unfold addEntry
  rw [if_pos he]

/-- Sum of the risks accumulated by the report fold. -/
theorem foldl_risk (l : List ReportItem) :
    ∀ n : Nat, l.foldl (fun a b => a + b.risk) n = n + (l.map ReportItem.risk).sum := by
  induction l with
  | nil => intro n; simp
  | cons x xs ih => intro n; simp [ih, Nat.add_assoc]

/-- Lowercase hexadecimal digit. -/
def isLowerHexCh (c : Char) : Bool := c.isDigit || ('a' ≤ c && c ≤ 'f')

/-- The property the modelled hash digest enjoys: a keccak-256 hex digest is
64 lowercase hexadecimal characters. -/
def digestOk (s : String) : Bool := s.data.length == 64 && s.data.all isLowerHexCh

/-- A well-formed index key: `0x` followed by 8 lowercase hex digits. -/
def isSelectorKey (s : String) : Bool :=
  match s.data with
  | '0' :: 'x' :: rest => rest.length == 8 && rest.all isLowerHexCh
  | _ => false

/-- Shape of a derived selector under the digest hypothesis. -/
theorem deriveSelector_shape (k : String → String) (sig : String)
    (h : digestOk (k sig) = true) :
    (deriveSelector k sig).length = 10 ∧ isSelectorKey (deriveSelector k sig) = true := by
  have hdata : (deriveSelector k sig).data = '0' :: 'x' :: (k sig).data.take 8 := by
    unfold deriveSelector
    rw [data_append, strTake_data]
    rfl
  unfold digestOk at h
  rw [Bool.and_eq_true, beq_iff_eq] at h
  obtain ⟨hlen, hall⟩ := h
  have htlen : ((k sig).data.take 8).length = 8 := by
    rw [List.length_take, hlen]
    decide
  have htall : ((k sig).data.take 8).all isLowerHexCh = true := by
    rw [List.all_eq_true] at hall ⊢
    intro c hc
    exact hall c (List.mem_of_mem_take hc)
  constructor
  · rw [string_length_data, hdata]
    simp [htlen]
  · unfold isSelectorKey
    rw [hdata]
    simp [htlen, htall]


/-- A concrete stand-in for the hex digest used by witnesses and
counterexamples: every signature digests to 64 copies of `a`. -/
def hashConst : String → String := fun _ => "aaaaaaaaaaaaaaaaaaaaaaaaaaaaaaaaaaaaaaaaaaaaaaaaaaaaaaaaaaaaaaaa"

/-- The digest stand-in satisfies the hex-digest property. -/
theorem hashConst_digestOk (s : String) : digestOk (hashConst s) = true := by
  show digestOk "aaaaaaaaaaaaaaaaaaaaaaaaaaaaaaaaaaaaaaaaaaaaaaaaaaaaaaaaaaaaaaaa" = true
  decide

/-- C5: the total risk is the sum of all contributions, every rule is
checked (the matched-rule filter keeps rule order and accumulates all
matches), and the reasons appear in application order: unknown-selector or
matched rule descriptions then the payability reason, with the
value-attached reason last. -/
theorem risk_accumulation_order (idx : List (String × FunctionMeta)) (call : QueuedCall) :
    analyzeCall idx call =
      { risk := (phase1 idx (strTake call.data 10)).1
          + (if valuePositive call.value then 5 else 0),
        reasons := (phase1 idx (strTake call.data 10)).2
          ++ (if valuePositive call.value then ["ETH value attached"] else []),
        selector := strTake call.data 10 } :=
  analyzeCall_spec idx call

/-- C3: a call whose selector is not in the index scores exactly the fixed
penalty 10 with the single rule-phase reason, with no rule evaluation and no
payability check; the analyzer still returns an ordinary result. -/
theorem unknown_selector_scoring (idx : List (String × FunctionMeta)) (call : QueuedCall)
    (h : idxLookup idx (strTake call.data 10) = none) :
    analyzeCall idx call =
      { risk := 10 + (if valuePositive call.value then 5 else 0),
        reasons := "Unknown selector (not in ABI)"
          :: (if valuePositive call.value then ["ETH value attached"] else []),
        selector := strTake call.data 10 } := by
  rw [analyzeCall_spec]
  simp only [phase1, h]
  rfl

/-- Concrete call for the C3 witness. -/
def c3call : QueuedCall := { toAddr := "0x1111", data := "0xdeadbeef00", value := JsValue.num 0 }

/-- Witness for C3 at a concrete unknown selector. -/
theorem unknown_selector_scoring_witness :
    idxLookup [] (strTake c3call.data 10) = none ∧
    analyzeCall [] c3call =
      { risk := 10, reasons := ["Unknown selector (not in ABI)"], selector := "0xdeadbeef" } :=
  ⟨rfl, (unknown_selector_scoring [] c3call rfl).trans (by decide)⟩

/-- C4: the value check `Number(call.value || 0) > 0` is independent of
resolution; when positive it adds 5 and appends the reason, otherwise the
result is exactly the result for the same call with value 0. -/
theorem value_penalty_independent (idx : List (String × FunctionMeta)) (call : QueuedCall) :
    valuePositive call.value = jsGtZero (jsNumberOf (valueOrZero call.value)) ∧
    valuePositive (JsValue.num 0) = false ∧
    analyzeCall idx call =
      (if valuePositive call.value then
        { analyzeCall idx { call with value := JsValue.num 0 } with
          risk := (analyzeCall idx { call with value := JsValue.num 0 }).risk + 5,
          reasons := (analyzeCall idx { call with value := JsValue.num 0 }).reasons
            ++ ["ETH value attached"] }
      else analyzeCall idx { call with value := JsValue.num 0 }) := by
  have h0 : valuePositive (JsValue.num 0) = false := rfl
  refine ⟨rfl, h0, ?_⟩
  by_cases hv : valuePositive call.value <;>
    simp [analyzeCall_spec, hv, h0]

/-- C10: when the resolved descriptor is payable the analyzer appends 5 risk
with the reason string exactly `"Payable call"` after the rule reasons; for
any other mutability there is no payability contribution. -/
theorem payable_penalty (idx : List (String × FunctionMeta)) (call : QueuedCall)
    (m : FunctionMeta) (hres : idxLookup idx (strTake call.data 10) = some m) :
    (m.stateMutability = "payable" →
      (analyzeCall idx call).risk =
        ((RULES.filter fun r => r.test (jsToLower m.name)).map Rule.weight).sum + 5
          + (if valuePositive call.value then 5 else 0) ∧
      (analyzeCall idx call).reasons =
        ((RULES.filter fun r => r.test (jsToLower m.name)).map Rule.desc)
          ++ ["Payable call"]
          ++ (if valuePositive call.value then ["ETH value attached"] else [])) ∧
    (m.stateMutability ≠ "payable" →
      (analyzeCall idx call).risk =
        ((RULES.filter fun r => r.test (jsToLower m.name)).map Rule.weight).sum
          + (if valuePositive call.value then 5 else 0) ∧
      (analyzeCall idx call).reasons =
        ((RULES.filter fun r => r.test (jsToLower m.name)).map Rule.desc)
          ++ (if valuePositive call.value then ["ETH value attached"] else [])) := by
  rw [analyzeCall_spec]
  simp only [phase1, hres]
  constructor
  · intro hp
    simp [hp, List.append_assoc]
  · intro hp
    simp [hp]

/-- A payable `grantRole` entry, as in the specification scenario. -/
def grantRoleEntry : AbiEntry :=
  { type := "function", name := "grantRole",
    inputs := some [{ type := "bytes32" }, { type := "address" }],
    stateMutability := some "payable" }

/-- Concrete call for the C10 witness. -/
def c10call : QueuedCall := { toAddr := "0x2222", data := "0xaaaaaaaa", value := JsValue.num 0 }

/-- Witness for C10: payable `grantRole`, value 0, scores 15 + 5 = 20 with
the payability reason appended after the rule reason. -/
theorem payable_penalty_witness :
    idxLookup (buildSelectorIndex hashConst [grantRoleEntry]) (strTake c10call.data 10)
      = some (entryMeta grantRoleEntry) ∧
    (entryMeta grantRoleEntry).stateMutability = "payable" ∧
    (analyzeCall (buildSelectorIndex hashConst [grantRoleEntry]) c10call).risk = 20 ∧
    (analyzeCall (buildSelectorIndex hashConst [grantRoleEntry]) c10call).reasons
      = ["Role change", "Payable call"] := by
  have h := payable_penalty (buildSelectorIndex hashConst [grantRoleEntry]) c10call
    (entryMeta grantRoleEntry) (by decide)
  have h2 := h.1 rfl
  exact ⟨by decide, rfl, h2.1.trans (by decide), h2.2.trans (by decide)⟩

/-- Strings with equal character lists are equal. -/
theorem string_ext {a b : String} (h : a.data = b.data) : a = b := by
  cases a; cases b; simp only at h; rw [h]

/-- The `mint(address,uint256)` nonpayable entry of the C1 scenario. -/
def mintEntry : AbiEntry :=
  { type := "function", name := "mint",
    inputs := some [{ type := "address" }, { type := "uint256" }],
    stateMutability := some "nonpayable" }

/-- C1: for an interface holding nonpayable `mint(address,uint256)`, a call
whose data begins with the derived selector scores 20 with
`["Token minting"]` at value 0, and 25 with
`["Token minting", "ETH value attached"]` at value 1. -/
theorem analyzeCall_mint_scenario (k : String → String)
    (hk : digestOk (k "mint(address,uint256)") = true) (tgt rest : String) :
    signatureOf mintEntry = "mint(address,uint256)" ∧
    analyzeCall (buildSelectorIndex k [mintEntry])
        { toAddr := tgt, data := deriveSelector k "mint(address,uint256)" ++ rest,
          value := JsValue.num 0 } =
      { risk := 20, reasons := ["Token minting"],
        selector := deriveSelector k "mint(address,uint256)" } ∧
    analyzeCall (buildSelectorIndex k [mintEntry])
        { toAddr := tgt, data := deriveSelector k "mint(address,uint256)" ++ rest,
          value := JsValue.num 1 } =
      { risk := 25, reasons := ["Token minting", "ETH value attached"],
        selector := deriveSelector k "mint(address,uint256)" } := by
  have hsig : signatureOf mintEntry = "mint(address,uint256)" := rfl
  have hlen : (deriveSelector k "mint(address,uint256)").data.length = 10 := by
    have h10 := (deriveSelector_shape k "mint(address,uint256)" hk).1
    rwa [string_length_data] at h10
  have htake : strTake (deriveSelector k "mint(address,uint256)" ++ rest) 10
      = deriveSelector k "mint(address,uint256)" := by
    apply string_ext
    rw [strTake_data, data_append, ← hlen, List.take_left]
  have hidx : buildSelectorIndex k [mintEntry]
      = [(deriveSelector k "mint(address,uint256)", entryMeta mintEntry)] := by
    rw [← hsig]
    rfl
  have hlook : idxLookup (buildSelectorIndex k [mintEntry])
      (deriveSelector k "mint(address,uint256)") = some (entryMeta mintEntry) := by
    rw [hidx]
    simp [idxLookup]
  have hphase : phase1 (buildSelectorIndex k [mintEntry])
      (deriveSelector k "mint(address,uint256)") = (20, ["Token minting"]) := by
    simp only [phase1, hlook]
    decide
  have hv0 : valuePositive (JsValue.num 0) = false := rfl
  have hv1 : valuePositive (JsValue.num 1) = true := by decide
  refine ⟨hsig, ?_, ?_⟩ <;>
    · rw [analyzeCall_spec]
      simp [htake, hphase, hv0, hv1]

/-- Witness for C1 at the concrete digest stand-in. -/
theorem analyzeCall_mint_scenario_witness :
    digestOk (hashConst "mint(address,uint256)") = true ∧
    analyzeCall (buildSelectorIndex hashConst [mintEntry])
        { toAddr := "0x3333", data := deriveSelector hashConst "mint(address,uint256)" ++ "ff",
          value := JsValue.num 1 } =
      { risk := 25, reasons := ["Token minting", "ETH value attached"],
        selector := deriveSelector hashConst "mint(address,uint256)" } :=
  ⟨by decide, (analyzeCall_mint_scenario hashConst (by decide) "0x3333" "ff").2.2⟩

/-- A `proxyUpgrade` function entry: its name mentions both `upgrade` and
`proxy`, but `proxy` comes first. -/
def proxyUpgradeEntry : AbiEntry :=
  { type := "function", name := "proxyUpgrade", inputs := some [],
    stateMutability := some "nonpayable" }

/-- Concrete resolved call used to refute C2 as stated. -/
def c2call : QueuedCall := { toAddr := "0x4444", data := "0xaaaaaaaa", value := JsValue.num 0 }

/-- Counterexample to C2 as stated: the resolved name `proxyupgrade`
contains both `upgrade` and `proxy`, yet the upgrade-proxy rule does not
match (the regex requires `upgrade` before `implementation` or `proxy`), so
the analysis shows no 25 contribution and no `"Proxy upgrade"` reason. -/
theorem upgradeProxy_order_counterexample :
    containsSub "upgrade".data (jsToLower "proxyUpgrade").data = true ∧
    containsSub "proxy".data (jsToLower "proxyUpgrade").data = true ∧
    idxLookup (buildSelectorIndex hashConst [proxyUpgradeEntry]) (strTake c2call.data 10)
      = some (entryMeta proxyUpgradeEntry) ∧
    analyzeCall (buildSelectorIndex hashConst [proxyUpgradeEntry]) c2call
      = { risk := 0, reasons := [], selector := "0xaaaaaaaa" } :=
  ⟨by decide, by decide, by decide, by decide⟩

/-- C2 (amended): for every resolved call whose lowercased name contains an
occurrence of `upgrade` followed later by `implementation` or `proxy`, the
upgrade-proxy rule matches, contributing exactly 25 to the risk and placing
`"Proxy upgrade"` in the reasons at its rule-order position. -/
theorem upgradeProxy_rule_contribution (idx : List (String × FunctionMeta)) (call : QueuedCall)
    (m : FunctionMeta) (hres : idxLookup idx (strTake call.data 10) = some m)
    (hmatch : reUpgradeProxy (jsToLower m.name) = true) :
    (analyzeCall idx call).risk =
      (if reDelegatecall (jsToLower m.name) then 40 else 0) + 25
        + (if reRoleAdmin (jsToLower m.name) then 15 else 0)
        + (if rePause (jsToLower m.name) then 10 else 0)
        + (if reMint (jsToLower m.name) then 20 else 0)
        + (if m.stateMutability = "payable" then 5 else 0)
        + (if valuePositive call.value then 5 else 0) ∧
    (analyzeCall idx call).reasons =
      (if reDelegatecall (jsToLower m.name) then ["Potential delegatecall use"] else [])
        ++ ["Proxy upgrade"]
        ++ (if reRoleAdmin (jsToLower m.name) then ["Role change"] else [])
        ++ (if rePause (jsToLower m.name) then ["Pausing contract"] else [])
        ++ (if reMint (jsToLower m.name) then ["Token minting"] else [])
        ++ (if m.stateMutability = "payable" then ["Payable call"] else [])
        ++ (if valuePositive call.value then ["ETH value attached"] else []) := by
  rw [analyzeCall_spec]
  simp only [phase1, hres]
  by_cases h1 : reDelegatecall (jsToLower m.name) <;>
    by_cases h3 : reRoleAdmin (jsToLower m.name) <;>
      by_cases h4 : rePause (jsToLower m.name) <;>
        by_cases h5 : reMint (jsToLower m.name) <;>
          by_cases hp : m.stateMutability = "payable" <;>
            by_cases hv : valuePositive call.value <;>
              simp [RULES, List.filter_cons, h1, hmatch, h3, h4, h5, hp, hv]

/-- An `upgradeTo` entry whose name matches the upgrade-proxy regex. -/
def upgradeToEntry : AbiEntry :=
  { type := "function", name := "upgradeToNewImplementation", inputs := some [{ type := "address" }],
    stateMutability := some "nonpayable" }

/-- Concrete call for the C2 witness. -/
def c2wcall : QueuedCall := { toAddr := "0x6666", data := "0xaaaaaaaa", value := JsValue.num 0 }

/-- Witness for the amended C2 on a concrete resolved call. -/
theorem upgradeProxy_rule_contribution_witness :
    idxLookup (buildSelectorIndex hashConst [upgradeToEntry]) (strTake c2wcall.data 10)
      = some (entryMeta upgradeToEntry) ∧
    reUpgradeProxy (jsToLower (entryMeta upgradeToEntry).name) = true ∧
    (analyzeCall (buildSelectorIndex hashConst [upgradeToEntry]) c2wcall).risk = 25 ∧
    (analyzeCall (buildSelectorIndex hashConst [upgradeToEntry]) c2wcall).reasons
      = ["Proxy upgrade"] := by
  have h := upgradeProxy_rule_contribution (buildSelectorIndex hashConst [upgradeToEntry])
    c2wcall (entryMeta upgradeToEntry) (by decide) (by decide)
  exact ⟨by decide, by decide, h.1.trans (by decide), h.2.trans (by decide)⟩

/-- C6: under the hex-digest property, every key of a built selector index
is exactly 10 characters: `0x` followed by 8 lowercase hex digits. -/
theorem index_keys_wellformed (k : String → String)
    (hk : ∀ s, digestOk (k s) = true) (abi : List AbiEntry)
    (p : String × FunctionMeta) (hp : p ∈ buildSelectorIndex k abi) :
    p.1.length = 10 ∧ isSelectorKey p.1 = true := by
  obtain ⟨f, _, _, hpe⟩ := mem_buildSelectorIndex k abi p hp
  rw [hpe]
  exact deriveSelector_shape k (signatureOf f) (hk (signatureOf f))

/-- Witness for C6 on the concrete digest stand-in and a one-entry ABI. -/
theorem index_keys_wellformed_witness :
    ("0xaaaaaaaa", entryMeta mintEntry) ∈ buildSelectorIndex hashConst [mintEntry] ∧
    ("0xaaaaaaaa" : String).length = 10 ∧ isSelectorKey "0xaaaaaaaa" = true := by
  have h := index_keys_wellformed hashConst hashConst_digestOk [mintEntry]
    ("0xaaaaaaaa", entryMeta mintEntry) (by decide)
  exact ⟨by decide, h.1, h.2⟩

/-- C7: the index binding of the latest-declared function entry wins: looking
up its derived selector returns its descriptor, regardless of any earlier
entry (in particular an earlier entry whose distinct signature collides on
the same selector). -/
theorem collision_last_write_wins (k : String → String) (abi1 abi2 : List AbiEntry)
    (e : AbiEntry) (he : e.type = "function")
    (h2 : ∀ f ∈ abi2, f.type = "function" →
      deriveSelector k (signatureOf f) ≠ deriveSelector k (signatureOf e)) :
    idxLookup (buildSelectorIndex k (abi1 ++ e :: abi2)) (deriveSelector k (signatureOf e))
      = some (entryMeta e) := by
  rw [build_append k abi1 abi2 e he]
  unfold idxLookup
  rw [List.find?_append]
  have hnone : (buildSelectorIndex k abi2).find?
      (fun p => p.1 == deriveSelector k (signatureOf e)) = none := by
    rw [List.find?_eq_none]
    intro p hp
    obtain ⟨f, hf, hft, hpe⟩ := mem_buildSelectorIndex k abi2 p hp
    rw [hpe]
    simp only [beq_iff_eq]
    exact h2 f hf hft
  rw [hnone]
  simp [List.find?_cons]

/-- First colliding entry for the C7 witness. -/
def fooEntry : AbiEntry :=
  { type := "function", name := "transferFrom", inputs := some [], stateMutability := none }

/-- Second colliding entry for the C7 witness. -/
def barEntry : AbiEntry :=
  { type := "function", name := "approve", inputs := some [], stateMutability := none }

/-- Witness for C7: two distinct signatures collide under the digest
stand-in and the later entry's descriptor is returned. -/
theorem collision_last_write_wins_witness :
    deriveSelector hashConst (signatureOf fooEntry)
      = deriveSelector hashConst (signatureOf barEntry) ∧
    signatureOf fooEntry ≠ signatureOf barEntry ∧
    idxLookup (buildSelectorIndex hashConst ([fooEntry] ++ barEntry :: []))
      (deriveSelector hashConst (signatureOf barEntry)) = some (entryMeta barEntry) :=
  ⟨by decide, by decide,
    collision_last_write_wins hashConst [fooEntry] [] barEntry (by decide) (by simp)⟩

/-- Restricted to the index's own bindings, a call whose data is shorter
than 10 characters keeps its whole data as the (under-length) selector,
which matches no own 10-character key, and is scored as an unknown
selector.  This localizes the divergence recorded by
`analyzer_prototype_failure`: the source deviates from this behaviour
exactly where the under-length selector hits an inherited
`Object.prototype` member. -/
theorem analyzer_total_short_data (k : String → String)
    (hk : ∀ s, digestOk (k s) = true) (abi : List AbiEntry) (call : QueuedCall)
    (hshort : call.data.length < 10) :
    strTake call.data 10 = call.data ∧
    idxLookup (buildSelectorIndex k abi) (strTake call.data 10) = none ∧
    analyzeCall (buildSelectorIndex k abi) call =
      { risk := 10 + (if valuePositive call.value then 5 else 0),
        reasons := "Unknown selector (not in ABI)"
          :: (if valuePositive call.value then ["ETH value attached"] else []),
        selector := call.data } := by
  have ht : strTake call.data 10 = call.data := by
    apply string_ext
    rw [strTake_data]
    apply List.take_of_length_le
    rw [← string_length_data]
    omega
  have hfind : (buildSelectorIndex k abi).find?
      (fun p => p.1 == strTake call.data 10) = none := by
    rw [List.find?_eq_none]
    intro p hp
    obtain ⟨f, hf, hft, hpe⟩ := mem_buildSelectorIndex k abi p hp
    rw [hpe]
    simp only [beq_iff_eq]
    intro hcontra
    have h10 := (deriveSelector_shape k (signatureOf f) (hk (signatureOf f))).1
    rw [hcontra, ht, string_length_data] at h10
    rw [string_length_data] at hshort
    omega
  have hnone : idxLookup (buildSelectorIndex k abi) (strTake call.data 10) = none := by
    unfold idxLookup
    rw [hfind]
    rfl
  have hnone2 : idxLookup (buildSelectorIndex k abi) call.data = none := by
    rw [← ht]
    exact hnone
  refine ⟨ht, hnone, ?_⟩
  rw [analyzeCall_spec]
  simp only [phase1, ht, hnone2]
  rfl

/-- Concrete short-data call for the C9 witness. -/
def c9call : QueuedCall := { toAddr := "0x5555", data := "0x123", value := JsValue.num 0 }

/-- The own-binding statement exercised at three-character data against a
nonempty index. -/
theorem analyzer_total_short_data_witness :
    c9call.data.length < 10 ∧
    analyzeCall (buildSelectorIndex hashConst [mintEntry]) c9call =
      { risk := 10, reasons := ["Unknown selector (not in ABI)"], selector := "0x123" } := by
  have h := analyzer_total_short_data hashConst hashConst_digestOk [mintEntry] c9call
    (by decide)
  exact ⟨by decide, h.2.2.trans (by decide)⟩

/-- C8: the report preserves input order with each call's `to` attached as
`target`, the empty queue yields the literal `"0.00"` with empty items, and
a nonempty queue's `avgRisk` is the arithmetic mean of the risks formatted
to two fraction digits. -/
theorem report_aggregation (k : String → String) (abi : List AbiEntry)
    (calls : List QueuedCall) :
    (mainReport k abi calls).items
      = calls.map (fun c => withTarget (analyzeCall (buildSelectorIndex k abi) c) c.toAddr) ∧
    (calls = [] → mainReport k abi calls = { avgRisk := "0.00", items := [] }) ∧
    (calls ≠ [] → (mainReport k abi calls).avgRisk
      = toFixed2 (((calls.map fun c => (analyzeCall (buildSelectorIndex k abi) c).risk).sum : Rat)
          / (calls.length : Rat))) := by
  refine ⟨rfl, ?_, ?_⟩
  · rintro rfl; rfl
  · intro hne
    show (if (calls.map fun c =>
        withTarget (analyzeCall (buildSelectorIndex k abi) c) c.toAddr).length = 0
      then "0.00"
      else toFixed2 ((((calls.map fun c =>
        withTarget (analyzeCall (buildSelectorIndex k abi) c) c.toAddr).foldl
          (fun a b => a + b.risk) 0 : Nat) : Rat)
        / (((calls.map fun c =>
          withTarget (analyzeCall (buildSelectorIndex k abi) c) c.toAddr).length : Nat) : Rat))) = _
    rw [List.length_map, if_neg (by simpa using hne), foldl_risk, Nat.zero_add, List.map_map]
    rfl

/-- Concrete call for the C8 witness. -/
def c8call : QueuedCall := { toAddr := "0xabc", data := "0xaaaaaaaa", value := JsValue.num 0 }

/-- Witness for C8: single mint call, average `"20.00"`, target attached. -/
theorem report_aggregation_witness :
    ([c8call] ≠ ([] : List QueuedCall)) ∧
    (mainReport hashConst [mintEntry] [c8call]).avgRisk = "20.00" ∧
    (mainReport hashConst [mintEntry] [c8call]).items
      = [{ risk := 20, reasons := ["Token minting"], selector := "0xaaaaaaaa",
           target := "0xabc" }] ∧
    mainReport hashConst [mintEntry] [] = { avgRisk := "0.00", items := [] } := by
  have h := report_aggregation hashConst [mintEntry] [c8call]
  have h0 := report_aggregation hashConst [mintEntry] []
  have hsum : (List.map (fun c =>
      (analyzeCall (buildSelectorIndex hashConst [mintEntry]) c).risk) [c8call]).sum = 20 := by
    decide
  have hlen : ([c8call] : List QueuedCall).length = 1 := rfl
  have h3 := h.2.2 (by decide)
  rw [hsum, hlen] at h3
  have h4 : (((20 : Nat) : Rat) / ((1 : Nat) : Rat)) = (20 : Rat) := by norm_num
  rw [h4] at h3
  refine ⟨by decide, ?_, ?_, h0.2.1 rfl⟩
  · exact h3.trans (by decide)
  · exact h.1.trans (by decide)

/-- C9 fails on the source: the index object inherits `Object.prototype`,
so a call with data `"__proto__"` (9 characters) makes the analyzer throw a
TypeError (no result at all), and a call with data `"toString"` (8
characters) — a selector absent from the index's own bindings — resolves to
the inherited function and scores risk 0 with no reasons instead of the
unknown-selector penalty. -/
theorem analyzer_prototype_failure :
    ("__proto__" : String).length < 10 ∧
    analyzeCallJs (buildSelectorIndex hashConst [mintEntry])
      { toAddr := "0x7777", data := "__proto__", value := JsValue.num 0 } = none ∧
    ("toString" : String).length < 10 ∧
    idxLookup (buildSelectorIndex hashConst [mintEntry]) "toString" = none ∧
    analyzeCallJs (buildSelectorIndex hashConst [mintEntry])
      { toAddr := "0x7777", data := "toString", value := JsValue.num 0 }
      = some { risk := 0, reasons := [], selector := "toString" } ∧
    analyzeCallJs (buildSelectorIndex hashConst [mintEntry])
      { toAddr := "0x7777", data := "valueOf", value := JsValue.num 0 }
      = some { risk := 0, reasons := [], selector := "valueOf" } := by
  refine ⟨by decide, by decide, by decide, by decide, by decide, by decide⟩

/-- Away from the inherited member names the prototype chain is invisible:
whenever a call's selector is neither `__proto__` nor an
`Object.prototype` member name — in particular whenever it is a derived
`0x`-prefixed selector, as on the specification's hex-string data domain —
the full model returns exactly the own-binding analysis. -/
theorem analyzeCallJs_eq_analyzeCall (idx : List (String × FunctionMeta)) (call : QueuedCall)
    (hproto : strTake call.data 10 ≠ "__proto__")
    (hmem : ∀ p ∈ objectProtoMembers, p.1 ≠ strTake call.data 10) :
    analyzeCallJs idx call = some (analyzeCall idx call) := by
  unfold analyzeCallJs analyzeCall jsPropRead
  cases hm : idxLookup idx (strTake call.data 10) with
  | some m => cases hv : valuePositive call.value <;> simp [hm, hv]
  | none =>
      have hfind : objectProtoMembers.find? (fun p => p.1 == strTake call.data 10) = none := by
        rw [List.find?_eq_none]
        intro p hp
        simp [hmem p hp]
      cases hv : valuePositive call.value <;>
        simp [hm, hv, hproto, hfind]

/-- The agreement of the two analyzers exercised at a concrete derived
selector. -/
theorem analyzeCallJs_eq_analyzeCall_witness :
    strTake c8call.data 10 ≠ "__proto__" ∧
    analyzeCallJs (buildSelectorIndex hashConst [mintEntry]) c8call
      = some (analyzeCall (buildSelectorIndex hashConst [mintEntry]) c8call) :=
  ⟨by decide,
    analyzeCallJs_eq_analyzeCall (buildSelectorIndex hashConst [mintEntry]) c8call
      (by decide) (by decide)⟩
